import Mathlib

/-!
Verification of the delivery-aggregation and feature-derivation pipeline of the
Bayesian-Spatiotemporal-xR-xW-Estimation-in-T20-Cricket repository.

The development shallowly embeds the two source stages:

* `01_parse_json_to_csv.py` — the per-innings accumulator
  (`_analyze_innings_deliveries`), single-file extraction
  (`extract_data_from_match_file`) and batch processing
  (`process_all_files_to_csv`).  Python dictionaries whose key *presence*
  matters (the extras mapping, the two stats maps) are modelled with `Option`
  fields and explicit key lists; Python `list[index]` is modelled as a
  fallible operation (`Except`), so an uncaught `IndexError`/`KeyError`
  surfaces as an `Except.error` value.

* `02_feature_engineering.py` — the rolling-window, match-context and
  target-generation transforms.  Pandas column operations are embedded
  denotationally, per (already grouped, already ordered) row list:
  `rolling(w, min_periods=1).sum()` becomes a clipped-window prefix sum,
  `cumcount() + 1` the 1-based position, `cumsum` the prefix sums,
  `shift(-1)` the next-row lookup, and `dropna` a filter on defined targets.
  Scalar float arithmetic is carried out over `ℚ`; `np.nan` (an undefined
  value) is `Option.none`.  The scalar conditional inside `compute_rrr`
  evaluates `bool()` of a pandas Series, which pandas refuses for every
  Series; that error path is modelled explicitly (`seriesBool`).
-/

namespace Cricket

/-! ## Feature-engineering stage (`02_feature_engineering.py`)

A `FRow` is one per-delivery record of the feature dataframe, after the basic
cleaning step (lines 14–19 of the source): `wicket_kind` is the raw column
from which `wicket_flag` is derived, `over`/`ball_in_over` are the two parts
of `ball_number`.  The delivery-level runs breakdown (`total_runs`, `byes`,
`legbyes`) is carried alongside `bat_runs` as in the repository's own data
model, so that "runs conceded to the bowler" in the sense of
`01_parse_json_to_csv.py` (total − byes − legbyes) is expressible. -/
structure FRow where
  bat_runs : ℕ
  wicket_kind : Option String
  over : ℕ
  ball_in_over : ℕ
  total_runs : ℕ
  byes : ℕ
  legbyes : ℕ
deriving DecidableEq, Repr

/-- Line 15: `wicket_flag = wicket_kind.notna().astype(int)`. -/
def wicket_flag (r : FRow) : ℕ :=
  if r.wicket_kind.isSome then 1 else 0

/-- Fixed rolling window, line 47: `window = 12`. -/
def window : ℕ := 12

/-- `x.rolling(w, min_periods=1).sum()` over one group: entry `i` is the sum
of the values at indices `i+1-w … i` (clipped at the start of the group —
natural subtraction performs the clipping, so partial windows sum whatever
entries exist). -/
def rollingSum (w : ℕ) (xs : List ℕ) : List ℕ :=
  (List.range xs.length).map (fun i => ((xs.take (i + 1)).drop (i + 1 - w)).sum)

/-- `groupby(...).cumcount() + 1` over one group: entry `i` is `i + 1`. -/
def cumcount1 (xs : List ℕ) : List ℕ :=
  (List.range xs.length).map (fun i => i + 1)

/-- Lines 49–51: `bat_rolling_runs`, rolling window sum of `bat_runs` within
one batter group. -/
def bat_rolling_runs (g : List FRow) : List ℕ :=
  rollingSum window (g.map (·.bat_runs))

/-- Line 53: `bat_rolling_balls = groupby("batter")["bat_runs"].cumcount() + 1`. -/
def bat_rolling_balls (g : List FRow) : List ℕ :=
  cumcount1 (g.map (·.bat_runs))

/-- Line 54: `bat_strike_rate = bat_rolling_runs / bat_rolling_balls * 100`. -/
def bat_strike_rate (g : List FRow) : List ℚ :=
  (List.range g.length).map (fun i =>
    (((bat_rolling_runs g).getD i 0 : ℚ) / ((bat_rolling_balls g).getD i 0 : ℚ)) * 100)

/-- Lines 70–72: `bowl_rolling_runs_conceded`, rolling window sum **of the
`bat_runs` column** within one bowler group (the source rolls `bat_runs`,
not a runs-conceded quantity). -/
def bowl_rolling_runs_conceded (g : List FRow) : List ℕ :=
  rollingSum window (g.map (·.bat_runs))

/-- Line 74: `bowl_rolling_balls = groupby("bowler")["bat_runs"].cumcount() + 1`. -/
def bowl_rolling_balls (g : List FRow) : List ℕ :=
  cumcount1 (g.map (·.bat_runs))

/-- Line 75: `bowl_economy = bowl_rolling_runs_conceded / bowl_rolling_balls * 6`. -/
def bowl_economy (g : List FRow) : List ℚ :=
  (List.range g.length).map (fun i =>
    (((bowl_rolling_runs_conceded g).getD i 0 : ℚ) / ((bowl_rolling_balls g).getD i 0 : ℚ)) * 6)

/-- The runs conceded to the bowler on one delivery, as the repository itself
defines them in `01_parse_json_to_csv.py` line 51:
`runs.total − extras.byes − extras.legbyes` (wide/no-ball penalty runs
included). -/
def concededRuns (r : FRow) : ℤ :=
  (r.total_runs : ℤ) - (r.byes : ℤ) - (r.legbyes : ℤ)

/-- Modelled from the spec's words ("Economy: runs conceded per 6 balls
bowled", rolled with the same windowed-numerator / cumulative-denominator
shape): the rolling economy one would get by rolling the bowler's *runs
conceded* instead of the `bat_runs` column.  Used only to compare against the
source's `bowl_economy`. -/
def bowl_economy_over_conceded (g : List FRow) : List ℚ :=
  (List.range g.length).map (fun i =>
    ((((g.map concededRuns).take (i + 1)).drop (i + 1 - window)).sum : ℚ) / ((i + 1 : ℕ) : ℚ) * 6)

/-- Line 88: `inning_runs_cum = groupby(["match_id","inning"])["bat_runs"].cumsum()`
over one (match, innings) group: entry `i` is the sum of the first `i + 1`
values. -/
def inning_runs_cum (g : List FRow) : List ℕ :=
  (List.range g.length).map (fun i => ((g.map (·.bat_runs)).take (i + 1)).sum)

/-- Line 99: the Series `remaining_balls = 120 − (over*6 + ball_in_over)`,
one value per row of the group. -/
def remaining_balls (g : List FRow) : List ℤ :=
  g.map (fun r => 120 - ((r.over : ℤ) * 6 + (r.ball_in_over : ℤ)))

/-- `bool()` of a pandas Series, as forced by an `if`/ternary condition:
pandas unconditionally raises
`ValueError: The truth value of a Series is ambiguous`, whatever the
Series' length or contents. -/
def seriesBool (_s : List Bool) : Except Unit Bool := .error ()

/-- Lines 95–100, `compute_rrr`, for one (match id, innings) group `x`:
an empty group returns the scalar `np.nan` early (`.ok none`, lines 96–97);
otherwise `target = x["inning_runs_cum"].max() + 1` (line 98) and the
`remaining_balls` Series (line 99) are computed, and then the ternary's
condition `remaining_balls > 0` — a Series of booleans — is forced to a
single `bool()`, which pandas refuses: every non-empty group raises
`ValueError`.  The two ternary branches (the per-row value Series
`(target − inning_runs_cum) * 6 / remaining_balls`, and the scalar
`np.nan`) are represented but unreachable. -/
def compute_rrr (g : List FRow) : Except Unit (Option (List ℚ)) :=
  if g.isEmpty then .ok none
  else
    let cums := inning_runs_cum g
    let target : ℤ := ((cums.foldl max 0 : ℕ) : ℤ) + 1
    let remaining := remaining_balls g
    match seriesBool (remaining.map (fun rb => decide (0 < rb))) with
    | .error e => .error e
    | .ok true =>
        .ok (some ((cums.zip remaining).map (fun cr =>
          (((target - (cr.1 : ℤ) : ℤ) : ℚ) * 6 / ((cr.2 : ℤ) : ℚ)))))
    | .ok false => .ok none

/-- Line 123: `xR_target = groupby(["match_id","inning"])["bat_runs"].shift(-1)`
over one group: entry `i` is the following row's `bat_runs`, `none` on the
last row. -/
def xR_target (g : List FRow) : List (Option ℕ) :=
  (List.range g.length).map (fun i => (g.get? (i + 1)).map (·.bat_runs))

/-- Line 124: `xW_target = groupby(["match_id","inning"])["wicket_flag"].shift(-1)`. -/
def xW_target (g : List FRow) : List (Option ℕ) :=
  (List.range g.length).map (fun i => (g.get? (i + 1)).map wicket_flag)

/-- Lines 123–127 combined, per group: attach both shifted targets, then
`dropna(subset=["xR_target","xW_target"])` — keep exactly the rows whose
targets are both defined. -/
def targetRows (g : List FRow) : List (FRow × ℕ × ℕ) :=
  ((g.zip ((xR_target g).zip (xW_target g))).filterMap (fun rt =>
    match rt with
    | (r, some xr, some xw) => some (r, xr, xw)
    | _ => none))

/-! ## Parsing / aggregation stage (`01_parse_json_to_csv.py`)

The JSON match record, restricted to the keys the source reads.  A field read
with `dict.get(key)` or `dict.get(key, default)` is an `Option`; a nested
dict read with `dict.get(key, {})` is an `Option` of a structure. -/

/-- One entry of a wicket event's `fielders` list; only `name` is read
(`.get('name')`, so `Option`). -/
structure Fielder where
  name : Option String
deriving DecidableEq, Repr

/-- One wicket event: `kind`, `player_out`, and the `fielders` list; the
`fielders` key may be absent (`none`) which the source defaults to `[{}]`. -/
structure Wicket where
  kind : Option String
  player_out : Option String
  fielders : Option (List Fielder)
deriving DecidableEq, Repr

/-- The `runs` dict of a delivery; every read is `.get(k, 0)`, so plain `ℕ`
fields (an absent key and a zero value are indistinguishable to the source).
An absent `runs` dict (`delivery.get('runs', {})`) is the all-zero record. -/
structure RunsData where
  batter : ℕ := 0
  extras : ℕ := 0
  total : ℕ := 0
deriving DecidableEq, Repr

/-- The `extras` dict of a delivery.  Key *presence* matters for `wides` and
`noballs` (`'wides' not in extras_data`), so those are `Option ℕ`: a key
present with value 0 is `some 0`, an absent key is `none`.  `byes` and
`legbyes` are read with `.get(k, 0)` but kept as `Option` for uniformity. -/
structure ExtrasData where
  wides : Option ℕ := none
  noballs : Option ℕ := none
  byes : Option ℕ := none
  legbyes : Option ℕ := none
deriving DecidableEq, Repr

/-- One delivery record (the keys read by `_analyze_innings_deliveries`).
`wickets` is read with `.get('wickets')` and then only tested for truthiness
and indexed at 0, so `None` and `[]` coincide: a plain list. -/
structure Delivery where
  batter : Option String := none
  bowler : Option String := none
  runs : RunsData := {}
  extras : ExtrasData := {}
  wickets : List Wicket := []
deriving DecidableEq, Repr

/-- One over: `over_data.get('deliveries', [])`. -/
structure Over where
  deliveries : Option (List Delivery) := none
deriving DecidableEq, Repr

/-- One innings: `innings.get('team')` and `innings.get('overs', [])`. -/
structure Innings where
  team : Option String := none
  overs : Option (List Over) := none
deriving DecidableEq, Repr

/-- Python truthiness of an optional string: `None` and `''` are falsy. -/
def truthyStr : Option String → Bool
  | none => false
  | some s => !s.isEmpty

/-- Python `a or b` on optional strings: `a` if truthy, else `b`. -/
def pyOr (a b : Option String) : Option String :=
  if truthyStr a then a else b

/-- Line 28: `is_valid_ball = 'wides' not in extras_data and 'noballs' not in
extras_data` — key presence regardless of value. -/
def is_valid_ball (d : Delivery) : Bool :=
  !d.extras.wides.isSome && !d.extras.noballs.isSome

/-- Line 59: `kind in ['caught', 'bowled', 'lbw', 'stumped', 'hit wicket']`
(`kind` is `wickets_data[0].get('kind')`; Python's `None in [...]` is false). -/
def is_bowler_wicket (kind : Option String) : Bool :=
  kind ∈ [some "caught", some "bowled", some "lbw", some "stumped", some "hit wicket"]

/-- The full batting dict created by `setdefault(batter, {...})` on line 34.
`dismissal` and `out_by` start as `None`. -/
structure BatStat where
  runs : ℕ := 0
  balls_faced : ℕ := 0
  fours : ℕ := 0
  sixes : ℕ := 0
  dismissal : Option String := none
  out_by : Option String := none
  is_bowling : Bool := false
deriving DecidableEq, Repr

/-- An entry of the `batting_stats` dict.  Line 49 inserts a *partial* dict
`{'is_bowling': False}` for a bowler not yet in the map (`BatEntry.init`);
reading its stats through `.get(k, default)` yields the defaults, but a later
`batting_stats[batter]['runs'] += …` on such an entry raises `KeyError`. -/
inductive BatEntry where
  | init
  | stat (s : BatStat)
deriving DecidableEq, Repr

/-- The bowling dict created by `setdefault(bowler, {...})` on line 48.
`runs_conceded` is an integer: line 51 subtracts byes and leg-byes from the
total, which can go negative on malformed data. -/
structure BowlStat where
  runs_conceded : ℤ := 0
  balls_bowled : ℕ := 0
  wickets : ℕ := 0
  extras : ℕ := 0
  is_batting : Bool := false
deriving DecidableEq, Repr

/-- Pointwise update of a map, mirroring `dict[key] = value`. -/
def upd {α : Type} (f : String → α) (k : String) (v : α) : String → α :=
  fun x => if x = k then v else f x

/-- The state of `_analyze_innings_deliveries` while scanning deliveries:
the two stats dicts (value map plus insertion-ordered key list, so that the
dict's key set is explicit) and `total_balls`. -/
structure InningsState where
  bat : String → BatEntry
  batKeys : List String
  bowl : String → BowlStat
  bowlKeys : List String
  total_balls : ℕ

/-- Empty dicts, `total_balls = 0`. -/
def initState : InningsState :=
  { bat := fun _ => .stat {}, batKeys := [],
    bowl := fun _ => {}, bowlKeys := [], total_balls := 0 }

/-- Lines 43–44: `wickets_data[0].get('fielders', [{}])[0].get('name')`.
An absent `fielders` key defaults to `[{}]`, whose first element has no
`name` (`none`); a *present but empty* list raises `IndexError`. -/
def fielderName (w : Wicket) : Except Unit (Option String) :=
  match w.fielders with
  | none => .ok none
  | some [] => .error ()
  | some (f :: _) => .ok f.name

/-- Lines 35–39: the run/ball/boundary mutations of the batter's dict
(`runs += …`, `balls_faced += 1` iff valid, then the 4s/6s `if`/`elif`). -/
def batStatUpdate (s : BatStat) (rb : ℕ) (valid : Bool) : BatStat :=
  let s1 : BatStat :=
    { s with runs := s.runs + rb,
             balls_faced := if valid then s.balls_faced + 1 else s.balls_faced }
  if rb = 4 then { s1 with fours := s1.fours + 1 }
  else if rb = 6 then { s1 with sixes := s1.sixes + 1 }
  else s1

/-- Lines 42–44: record the dismissal kind and the dismissing credit
(`fielder_name or bowler`). -/
def batStatWicket (s : BatStat) (w : Wicket) (fn : Option String)
    (bowler : Option String) : BatStat :=
  { s with dismissal := w.kind, out_by := pyOr fn bowler }

/-- Lines 33–44, the batter block, for a truthy batter `b`.  `setdefault`
inserts a full zero dict when `b` is absent; the subsequent `+=` mutations
require the full dict, so a partial (`init`) entry raises `KeyError`. -/
def batterUpdate (st : InningsState) (d : Delivery) (b : String) (valid : Bool) :
    Except Unit InningsState :=
  let keys := if b ∈ st.batKeys then st.batKeys else st.batKeys ++ [b]
  let batf := if b ∈ st.batKeys then st.bat else upd st.bat b (.stat {})
  match batf b with
  | .init => .error ()
  | .stat s =>
    let s2 := batStatUpdate s d.runs.batter valid
    match d.wickets with
    | w :: _ =>
      if w.player_out = some b then
        match fielderName w with
        | .error e => .error e
        | .ok fn =>
          .ok { st with
                bat := upd batf b (.stat (batStatWicket s2 w fn d.bowler)),
                batKeys := keys }
      else .ok { st with bat := upd batf b (.stat s2), batKeys := keys }
    | [] => .ok { st with bat := upd batf b (.stat s2), batKeys := keys }

/-- Lines 51–63: the new value of the bowler's dict entry after one delivery,
starting from its current value `w`: add the bowler-credited concession
(`total − byes − legbyes`), the `runs.extras` total, a ball iff valid, a
wicket iff the first wicket event's kind is bowler-credited, and set the
`is_batting` flag. -/
def bowlStatDelta (w : BowlStat) (d : Delivery) (valid : Bool) : BowlStat :=
  let bowler_runs : ℤ :=
    (d.runs.total : ℤ) - (d.extras.byes.getD 0 : ℤ) - (d.extras.legbyes.getD 0 : ℤ)
  let w1 : BowlStat :=
    { w with runs_conceded := w.runs_conceded + bowler_runs,
             extras := w.extras + d.runs.extras,
             balls_bowled := if valid then w.balls_bowled + 1 else w.balls_bowled }
  let w2 : BowlStat :=
    match d.wickets with
    | wk :: _ => if is_bowler_wicket wk.kind then { w1 with wickets := w1.wickets + 1 } else w1
    | [] => w1
  { w2 with is_batting := true }

/-- Lines 47–63, the bowler block, for a truthy bowler `bw`: `setdefault`
into both dicts (the batting one with the partial `{'is_bowling': False}`
dict), then the concession/ball/wicket updates.  No mutation here can raise. -/
def bowlerUpdate (st : InningsState) (d : Delivery) (bw : String) (valid : Bool) :
    InningsState :=
  let bkeys := if bw ∈ st.bowlKeys then st.bowlKeys else st.bowlKeys ++ [bw]
  let bowlf := if bw ∈ st.bowlKeys then st.bowl else upd st.bowl bw {}
  let batKeys2 := if bw ∈ st.batKeys then st.batKeys else st.batKeys ++ [bw]
  let batf2 := if bw ∈ st.batKeys then st.bat else upd st.bat bw .init
  { st with bowl := upd bowlf bw (bowlStatDelta (bowlf bw) d valid), bowlKeys := bkeys,
            bat := batf2, batKeys := batKeys2 }

/-- Lines 32–44 guarded by `if batter:` — the batter phase of one loop
iteration (a falsy batter leaves the state unchanged). -/
def batterPhase (st : InningsState) (d : Delivery) (valid : Bool) :
    Except Unit InningsState :=
  match d.batter with
  | some b => if truthyStr (some b) then batterUpdate st d b valid else .ok st
  | none => .ok st

/-- Lines 46–63 guarded by `if bowler:` — the bowler phase of one loop
iteration (a falsy bowler leaves the state unchanged); it never raises. -/
def bowlerPhase (st : InningsState) (d : Delivery) (valid : Bool) : InningsState :=
  match d.bowler with
  | some bw => if truthyStr (some bw) then bowlerUpdate st d bw valid else st
  | none => st

/-- One iteration of the delivery loop (lines 20–63): count the ball if
valid, then the batter block, then the bowler block. -/
def stepDelivery (st : InningsState) (d : Delivery) : Except Unit InningsState :=
  let valid := is_valid_ball d
  let st1 := { st with total_balls := if valid then st.total_balls + 1 else st.total_balls }
  match batterPhase st1 d valid with
  | .error e => .error e
  | .ok st2 => .ok (bowlerPhase st2 d valid)

/-- The delivery loop over a list of deliveries, threading the state;
an uncaught exception aborts the whole innings analysis. -/
def runDeliveries (st : InningsState) : List Delivery → Except Unit InningsState
  | [] => .ok st
  | d :: ds =>
    match stepDelivery st d with
    | .error e => .error e
    | .ok st' => runDeliveries st' ds

/-- The deliveries of an innings in order: the two nested loops of lines
19–20 flattened. -/
def inningsDeliveries (i : Innings) : List Delivery :=
  ((i.overs.getD []).map (fun o => o.deliveries.getD [])).flatten

/-- Pass 1 of `_analyze_innings_deliveries` on a delivery list. -/
def analyzeDeliveries (ds : List Delivery) : Except Unit InningsState :=
  runDeliveries initState ds

/-! ### Pass 2 of `_analyze_innings_deliveries`, and the per-file/per-batch
orchestration. -/

/-- Reads of a batting entry through `.get(key, default)`: a partial
(`init`) entry—and likewise the empty dict `{}` obtained by
`batting_stats.get(player, {})`—yields the defaults. -/
def entryRuns : BatEntry → ℕ
  | .init => 0
  | .stat s => s.runs

def entryBallsFaced : BatEntry → ℕ
  | .init => 0
  | .stat s => s.balls_faced

def entryFours : BatEntry → ℕ
  | .init => 0
  | .stat s => s.fours

def entrySixes : BatEntry → ℕ
  | .init => 0
  | .stat s => s.sixes

def entryDismissal : BatEntry → Option String
  | .init => none
  | .stat s => s.dismissal

def entryOutBy : BatEntry → Option String
  | .init => none
  | .stat s => s.out_by

/-- Line 68: `all_players = set(batting_stats.keys()) | set(bowling_stats.keys())`
(set iteration order is arbitrary in Python; one enumeration is fixed here). -/
def allPlayers (st : InningsState) : List String :=
  st.batKeys ++ st.bowlKeys.filter (fun p => !st.batKeys.contains p)

/-- Python `round(x, 2)` approximated over `ℚ` (round half up; the claims
never depend on the rounding direction of exact halves). -/
def round2 (q : ℚ) : ℚ :=
  (Int.floor (q * 100 + 1 / 2) : ℚ) / 100

/-- The high-level match metadata extracted once per file (lines 125–135). -/
structure MatchMeta where
  file_name : String
  match_id : String
  date : String
  venue : Option String
  team_1 : String
  team_2 : String
  toss_winner : Option String
  result_winner : Option String
  player_of_match : String
deriving DecidableEq, Repr

/-- One flat output row (lines 83–106 merged with the match metadata by
`row.update(match_data)`; `match_id` appears in both and carries the same
value). -/
structure Row where
  match_id : String
  innings_number : ℕ
  innings_team : Option String
  player_name : String
  bat_runs : ℕ
  bat_balls_faced : ℕ
  bat_4s : ℕ
  bat_6s : ℕ
  bat_sr : ℚ
  bat_dismissal : Option String
  bat_out_by : Option String
  bowl_runs_conceded : ℤ
  bowl_wickets : ℕ
  bowl_balls_bowled : ℕ
  bowl_overs : String
  bowl_economy : ℚ
  bowl_extras : ℕ
  file_name : String
  date : String
  venue : Option String
  team_1 : String
  team_2 : String
  toss_winner : Option String
  result_winner : Option String
  player_of_match : String
deriving DecidableEq, Repr

/-- Lines 74–107: one output row for one player of an innings.
`b_stats = batting_stats.get(player, {})`, `w_stats = bowling_stats.get(player, {})`:
a player missing from a dict reads as all defaults. -/
def playerRow (md : MatchMeta) (inum : ℕ) (team : Option String)
    (st : InningsState) (p : String) : Row :=
  let be := if p ∈ st.batKeys then st.bat p else .stat {}
  let w := if p ∈ st.bowlKeys then st.bowl p else {}
  let rs := entryRuns be
  let bf := entryBallsFaced be
  let rc := w.runs_conceded
  let bb := w.balls_bowled
  { match_id := md.match_id, innings_number := inum, innings_team := team,
    player_name := p,
    bat_runs := rs, bat_balls_faced := bf,
    bat_4s := entryFours be, bat_6s := entrySixes be,
    bat_sr := if 0 < bf then round2 ((rs : ℚ) / (bf : ℚ) * 100) else 0,
    bat_dismissal := entryDismissal be, bat_out_by := entryOutBy be,
    bowl_runs_conceded := rc, bowl_wickets := w.wickets, bowl_balls_bowled := bb,
    bowl_overs := toString (bb / 6) ++ "." ++ toString (bb % 6),
    bowl_economy := if 0 < bb then round2 ((rc : ℚ) / (bb : ℚ) * 6) else 0,
    bowl_extras := w.extras,
    file_name := md.file_name, date := md.date, venue := md.venue,
    team_1 := md.team_1, team_2 := md.team_2, toss_winner := md.toss_winner,
    result_winner := md.result_winner, player_of_match := md.player_of_match }

/-- `_analyze_innings_deliveries` for one innings: pass 1 over the
deliveries, then one row per player (pass 2); exceptions propagate. -/
def analyzeInnings (md : MatchMeta) (inum : ℕ) (i : Innings) :
    Except Unit (List Row) :=
  match analyzeDeliveries (inningsDeliveries i) with
  | .error e => .error e
  | .ok st => .ok ((allPlayers st).map (playerRow md inum i.team st))

/-- Python `list[i]`: raises `IndexError` out of range. -/
def pyIndex {α : Type} (xs : List α) (i : ℕ) : Except Unit α :=
  match xs.get? i with
  | some x => .ok x
  | none => .error ()

/-- The `info.event` dict: only `match_number` is read. -/
structure EventInfo where
  match_number : Option String := none
deriving DecidableEq, Repr

/-- The `info.toss` dict: only `winner` is read. -/
structure TossInfo where
  winner : Option String := none
deriving DecidableEq, Repr

/-- The `info.outcome` dict: only `winner` is read. -/
structure OutcomeInfo where
  winner : Option String := none
deriving DecidableEq, Repr

/-- The `info` dict, restricted to the keys read on lines 125–135. -/
structure Info where
  event : Option EventInfo := none
  dates : Option (List String) := none
  venue : Option String := none
  teams : Option (List String) := none
  toss : Option TossInfo := none
  outcome : Option OutcomeInfo := none
  player_of_match : Option (List String) := none
deriving DecidableEq, Repr

/-- One parsed match file: `data.get('info', {})` and `data.get('innings', [])`. -/
structure MatchFile where
  info : Option Info := none
  innings : Option (List Innings) := none
deriving DecidableEq, Repr

/-- Lines 122–135: build `match_data` from a parsed file.  Defaults follow
the source exactly: `dates` defaults to `['Unknown']`, `teams` to `['']` —
so `teams[1]` on the default (or on any shorter-than-2 list) raises
`IndexError`, as does `dates[0]` on a present-but-empty list. -/
def matchMeta (basename : String) (m : MatchFile) : Except Unit MatchMeta := do
  let info := m.info.getD {}
  let mid := (info.event.getD {}).match_number.getD ((basename.splitOn ".").headD "")
  let date ← pyIndex (info.dates.getD ["Unknown"]) 0
  let t1 ← pyIndex (info.teams.getD [""]) 0
  let t2 ← pyIndex (info.teams.getD [""]) 1
  .ok { file_name := basename, match_id := mid, date := date, venue := info.venue,
        team_1 := t1, team_2 := t2,
        toss_winner := (info.toss.getD {}).winner,
        result_winner := (info.outcome.getD {}).winner,
        player_of_match := String.intercalate ", " (info.player_of_match.getD []) }

/-- The loop over innings (lines 140–147): 1-based innings numbers, all rows
concatenated; an exception in any innings propagates. -/
def inningsLoop (md : MatchMeta) : ℕ → List Innings → Except Unit (List Row)
  | _, [] => .ok []
  | n, i :: is =>
    match analyzeInnings md n i with
    | .error e => .error e
    | .ok rows =>
      match inningsLoop md (n + 1) is with
      | .error e => .error e
      | .ok rest => .ok (rows ++ rest)

/-- The raw input handed to `extract_data_from_match_file`: either the file
failed to open or `json.load` failed (both caught by the `try`/`except` of
lines 115–120), or a parsed match record. -/
inductive FileInput where
  | unreadable
  | parsed (m : MatchFile)

/-- Lines 113–149, `extract_data_from_match_file`: a read/parse failure is
caught and yields `None` (`.ok none`); everything after the `try` block is
unprotected, so an `IndexError`/`KeyError` there escapes (`.error`). -/
def extract_data_from_match_file (basename : String) (inp : FileInput) :
    Except Unit (Option (List Row)) :=
  match inp with
  | .unreadable => .ok none
  | .parsed m =>
    match matchMeta basename m with
    | .error e => .error e
    | .ok md =>
      match inningsLoop md 1 (m.innings.getD []) with
      | .error e => .error e
      | .ok rows => .ok (some rows)

/-- Lines 168–177, the batch loop of `process_all_files_to_csv`: extend the
combined data with each file's rows (`if player_rows:` skips `None` and
empty results); an exception raised by any single file's processing escapes
the loop and aborts the batch. -/
def batchLoop (acc : List Row) : List (String × FileInput) → Except Unit (List Row)
  | [] => .ok acc
  | (name, inp) :: files =>
    match extract_data_from_match_file name inp with
    | .error e => .error e
    | .ok rows => batchLoop (acc ++ (rows.getD [])) files

/-- `process_all_files_to_csv` restricted to its data path: the combined
rows across all files, or the uncaught exception. -/
def process_all_files (files : List (String × FileInput)) : Except Unit (List Row) :=
  batchLoop [] files

/-! ## Invariants, measures and predicates used by the proofs -/

/-- Well-formedness of an accumulator state: key lists are duplicate-free,
off-key map entries are the pristine defaults, and every bowling key is also
a batting key (line 49 inserts every bowler into the batting dict). -/
def WF (st : InningsState) : Prop :=
  st.batKeys.Nodup ∧ st.bowlKeys.Nodup
  ∧ (∀ p, p ∉ st.batKeys → st.bat p = .stat {})
  ∧ (∀ p, p ∉ st.bowlKeys → st.bowl p = {})
  ∧ (∀ p, p ∈ st.bowlKeys → p ∈ st.batKeys)

/-- Total batting runs accumulated over the batting dict's keys. -/
def sumBat (st : InningsState) : ℕ :=
  (st.batKeys.map (fun p => entryRuns (st.bat p))).sum

/-- The delivery is batted by (truthy) batter `p`. -/
def batsBy (p : String) (d : Delivery) : Bool :=
  d.batter == some p && truthyStr d.batter

/-- The delivery is bowled by (truthy) bowler `p`. -/
def bowlsBy (p : String) (d : Delivery) : Bool :=
  d.bowler == some p && truthyStr d.bowler

/-- The delivery carries a wicket whose *first* event's kind is
bowler-credited (the source inspects only `wickets_data[0]`). -/
def bowlerWicketOn (d : Delivery) : Bool :=
  match d.wickets with
  | [] => false
  | wk :: _ => is_bowler_wicket wk.kind

/-- The state produced by a successful innings analysis (defaulting to the
initial state on error); used to name concrete result states. -/
def okState (ds : List Delivery) : InningsState :=
  match analyzeDeliveries ds with
  | .ok st => st
  | .error _ => initState

/-! ## Concrete example data -/

/-- Delivery 1 of the spec §8 scenario-6 innings: A hits a boundary off X. -/
def dA1 : Delivery :=
  { batter := some "A", bowler := some "X", runs := { batter := 4, total := 4 } }

/-- Delivery 2: a single. -/
def dA2 : Delivery :=
  { batter := some "A", bowler := some "X", runs := { batter := 1, total := 1 } }

/-- Delivery 3: A is bowled by X (no fielders key on the wicket event). -/
def dA3 : Delivery :=
  { batter := some "A", bowler := some "X", runs := {},
    wickets := [{ kind := some "bowled", player_out := some "A", fielders := none }] }

/-- The scenario-6 innings. -/
def dsW : List Delivery := [dA1, dA2, dA3]

/-- A delivery whose wicket event carries a *present but empty* fielders
list. -/
def dBadFielders : Delivery :=
  { batter := some "A", bowler := some "X", runs := {},
    wickets := [{ kind := some "caught", player_out := some "A", fielders := some [] }] }

/-- An empty parsed match file (valid JSON `{}`): no `info`, no `innings`. -/
def emptyMatchFile : MatchFile := {}

/-- A second-ball feature row: 2 off the bat, no wicket, ball 0.1. -/
def rowA : FRow :=
  { bat_runs := 2, wicket_kind := none, over := 0, ball_in_over := 1,
    total_runs := 2, byes := 0, legbyes := 0 }

/-- A feature row carrying a wicket: 3 off the bat, ball 0.2. -/
def rowB : FRow :=
  { bat_runs := 3, wicket_kind := some "bowled", over := 0, ball_in_over := 2,
    total_runs := 3, byes := 0, legbyes := 0 }

/-- A feature row past the nominal 120 balls: over 20, ball 0, so
`remaining_balls = 0`. -/
def rowDeath : FRow :=
  { bat_runs := 1, wicket_kind := none, over := 20, ball_in_over := 0,
    total_runs := 1, byes := 0, legbyes := 0 }

/-- A wide: one run conceded (`total_runs = 1`) but nothing off the bat. -/
def rowWide : FRow :=
  { bat_runs := 0, wicket_kind := none, over := 0, ball_in_over := 1,
    total_runs := 1, byes := 0, legbyes := 0 }

/-! ## General list lemmas -/

lemma getD_range_map {α : Type} (f : ℕ → α) (n i : ℕ) (d : α) (h : i < n) :
    ((List.range n).map f).getD i d = f i := by
  rw [List.getD_eq_getElem?_getD, List.getElem?_map, List.getElem?_range h]
  rfl

lemma sum_take_eq_sum_range (xs : List ℕ) (m : ℕ) :
    (xs.take m).sum = ∑ j ∈ Finset.range m, xs.getD j 0 := by
  induction m with
  | zero => simp
  | succ m ih =>
    rw [List.take_succ, List.sum_append, Finset.sum_range_succ, ih, List.getD_eq_getElem?_getD]
    cases h : xs[m]? <;> simp [h]

lemma slice_sum_eq_sum_Ico (xs : List ℕ) (a b : ℕ) (hab : a ≤ b) :
    ((xs.take b).drop a).sum = ∑ j ∈ Finset.Ico a b, xs.getD j 0 := by
  have h1 : ((xs.take b).take a).sum + ((xs.take b).drop a).sum = (xs.take b).sum :=
    List.sum_take_add_sum_drop _ _
  rw [List.take_take, min_eq_left hab] at h1
  have h2 : (∑ j ∈ Finset.Ico 0 a, xs.getD j 0) + ∑ j ∈ Finset.Ico a b, xs.getD j 0
      = ∑ j ∈ Finset.Ico 0 b, xs.getD j 0 :=
    Finset.sum_Ico_consecutive _ (Nat.zero_le a) hab
  have ha := sum_take_eq_sum_range xs a
  have hb := sum_take_eq_sum_range xs b
  rw [Finset.range_eq_Ico] at ha hb
  omega

/-! ## Structure of the target columns -/

lemma xR_target_cons (x : FRow) (g : List FRow) :
    xR_target (x :: g) = (g.get? 0).map (·.bat_runs) :: xR_target g := by
  rw [xR_target, xR_target, List.length_cons, List.range_succ_eq_map, List.map_cons,
    List.map_map]
  rfl

lemma xW_target_cons (x : FRow) (g : List FRow) :
    xW_target (x :: g) = (g.get? 0).map wicket_flag :: xW_target g := by
  rw [xW_target, xW_target, List.length_cons, List.range_succ_eq_map, List.map_cons,
    List.map_map]
  rfl

lemma targetRows_nil : targetRows [] = [] := rfl

lemma targetRows_single (x : FRow) : targetRows [x] = [] := by
  rw [targetRows, xR_target_cons, xW_target_cons]
  rfl

lemma targetRows_cons2 (x y : FRow) (g : List FRow) :
    targetRows (x :: y :: g) = (x, y.bat_runs, wicket_flag y) :: targetRows (y :: g) := by
  rw [targetRows, targetRows, xR_target_cons, xW_target_cons]
  rfl

/-- The dropna-filtered target table pairs each row with its successor. -/
lemma targetRows_eq (g : List FRow) :
    targetRows g = (g.zip g.tail).map (fun p => (p.1, p.2.bat_runs, wicket_flag p.2)) := by
  induction g with
  | nil => rfl
  | cons x t ih =>
    cases t with
    | nil => rw [targetRows_single]; rfl
    | cons y s =>
      rw [targetRows_cons2, ih]
      rfl

/-! ## Claim theorems for the feature-engineering stage -/

/-- **C3.** For every player group and every record `i` in it, `bat_rolling_runs`
is the sum of the player's runs over the last `min (i+1) 12` deliveries up to
and including the current one (the window covers exactly that many real
entries — a partial window at the start is shorter, never zero-padded),
`bat_rolling_balls` is the 1-indexed cumulative delivery count `i + 1`,
uncapped by the window, and `bat_strike_rate` is the windowed numerator over
the cumulative denominator times 100. -/
theorem bat_rolling_features (g : List FRow) (i : ℕ) (h : i < g.length) :
    (bat_rolling_runs g).getD i 0
        = ∑ j ∈ Finset.Ico (i + 1 - min (i + 1) window) (i + 1), (g.map (·.bat_runs)).getD j 0
  ∧ (i + 1 - min (i + 1) window) + min (i + 1) window = i + 1
  ∧ (bat_rolling_balls g).getD i 0 = i + 1
  ∧ (bat_strike_rate g).getD i 0
        = ((∑ j ∈ Finset.Ico (i + 1 - min (i + 1) window) (i + 1),
              (g.map (·.bat_runs)).getD j 0 : ℕ) : ℚ) / ((i + 1 : ℕ) : ℚ) * 100 := by
  have hlen : (g.map (·.bat_runs)).length = g.length := List.length_map _ _
  have h1 : (bat_rolling_runs g).getD i 0
      = ∑ j ∈ Finset.Ico (i + 1 - min (i + 1) window) (i + 1), (g.map (·.bat_runs)).getD j 0 := by
    rw [bat_rolling_runs, rollingSum, getD_range_map _ _ _ _ (by omega),
      slice_sum_eq_sum_Ico _ _ _ (by omega)]
    congr 2
    omega
  have h3 : (bat_rolling_balls g).getD i 0 = i + 1 := by
    rw [bat_rolling_balls, cumcount1, getD_range_map _ _ _ _ (by omega)]
  refine ⟨h1, by omega, h3, ?_⟩
  rw [bat_strike_rate, getD_range_map _ _ _ _ h, h1, h3]

/-- **C9.** Within each (match id, innings) group in delivery order, record `i`
(for every `i` except the last) receives the following record's runs value and
wicket indicator as its targets, and exactly the last record of each group is
dropped: the output has length `g.length − 1`. -/
theorem targets_next_ball (g : List FRow) (i : ℕ) (h : i + 1 < g.length) :
    (targetRows g).length = g.length - 1
  ∧ (targetRows g).get? i
      = some (g.get ⟨i, Nat.lt_of_succ_lt h⟩,
              (g.get ⟨i + 1, h⟩).bat_runs, wicket_flag (g.get ⟨i + 1, h⟩)) := by
  have heq : targetRows g
      = (g.zip g.tail).map (fun p => (p.1, p.2.bat_runs, wicket_flag p.2)) := targetRows_eq g
  constructor
  · rw [heq, List.length_map, List.length_zip, List.length_tail]
    omega
  · rw [heq, List.get?_eq_getElem?, List.getElem?_map]
    have hz : (g.zip g.tail)[i]? = some (g.get ⟨i, Nat.lt_of_succ_lt h⟩, g.get ⟨i + 1, h⟩) := by
      apply List.getElem?_zip_eq_some.mpr
      constructor
      · rw [List.get_eq_getElem, List.getElem?_eq_getElem (Nat.lt_of_succ_lt h)]
      · rw [List.getElem?_tail, List.get_eq_getElem, List.getElem?_eq_getElem h]
        rfl
    rw [hz]
    rfl

/-- **C2.** Evaluating `compute_rrr` at the failing input: the claimed
per-ball required run rate is never produced, because the ternary condition
`remaining_balls > 0` forces `bool()` of a pandas Series, which raises
`ValueError` for every non-empty (match id, innings) group — concretely at
the one-ball group `[rowDeath]`, and in general for any group `r :: g`;
only an empty group escapes early with the scalar `np.nan`. -/
theorem required_run_rate_raises :
    compute_rrr [rowDeath] = .error ()
    ∧ (∀ (r : FRow) (g : List FRow), compute_rrr (r :: g) = .error ())
    ∧ compute_rrr [] = .ok none :=
  ⟨rfl, fun _ _ => rfl, rfl⟩

/-! ## Accumulator-state lemmas -/

lemma sum_map_update_mem (f g : String → ℕ) (b : String) (hfg : ∀ q, q ≠ b → g q = f q) :
    ∀ keys : List String, keys.Nodup → b ∈ keys →
      (keys.map g).sum + f b = (keys.map f).sum + g b := by
  intro keys
  induction keys with
  | nil => intro _ hb; cases hb
  | cons k t ih =>
    intro hnd hb
    rcases List.mem_cons.mp hb with rfl | hbt
    · have htk : ∀ q ∈ t, q ≠ b := fun q hq hqk =>
        (List.nodup_cons.mp hnd).1 (hqk ▸ hq)
      have hmt : t.map g = t.map f := List.map_congr_left fun q hq => hfg q (htk q hq)
      simp only [List.map_cons, List.sum_cons, hmt]
      omega
    · have hkne : k ≠ b := fun hkb => (List.nodup_cons.mp hnd).1 (hkb ▸ hbt)
      have hrec := ih (List.nodup_cons.mp hnd).2 hbt
      simp only [List.map_cons, List.sum_cons, hfg k hkne]
      omega

lemma sum_map_append_new (f g : String → ℕ) (b : String) (hfg : ∀ q, q ≠ b → g q = f q)
    (keys : List String) (hb : b ∉ keys) :
    ((keys ++ [b]).map g).sum = (keys.map f).sum + g b := by
  rw [List.map_append, List.sum_append]
  have hmg : keys.map g = keys.map f :=
    List.map_congr_left fun q hq => hfg q (fun h => hb (h ▸ hq))
  simp [hmg]

lemma batStatUpdate_runs (s : BatStat) (rb : ℕ) (valid : Bool) :
    (batStatUpdate s rb valid).runs = s.runs + rb := by
  unfold batStatUpdate
  split_ifs <;> rfl

lemma batStatUpdate_balls (s : BatStat) (rb : ℕ) (valid : Bool) :
    (batStatUpdate s rb valid).balls_faced = s.balls_faced + (if valid then 1 else 0) := by
  unfold batStatUpdate
  split_ifs <;> simp

lemma batStatWicket_runs (s : BatStat) (w : Wicket) (fn bw : Option String) :
    (batStatWicket s w fn bw).runs = s.runs := rfl

lemma batStatWicket_balls (s : BatStat) (w : Wicket) (fn bw : Option String) :
    (batStatWicket s w fn bw).balls_faced = s.balls_faced := rfl

/-- The common success shape of the batter block: entry `b` replaced by a
stat whose runs/balls deltas are known, key list extended iff `b` was new. -/
lemma batterUpdate_shape (st : InningsState) (hWF : WF st) (b : String) (rb : ℕ)
    (valid : Bool) (s t : BatStat) (batf : String → BatEntry) (keys : List String)
    (hbatf : batf = if b ∈ st.batKeys then st.bat else upd st.bat b (.stat {}))
    (hkeys : keys = if b ∈ st.batKeys then st.batKeys else st.batKeys ++ [b])
    (hsb : batf b = .stat s) (htr : t.runs = s.runs + rb)
    (htb : t.balls_faced = s.balls_faced + (if valid then 1 else 0)) :
    WF { st with bat := upd batf b (.stat t), batKeys := keys }
    ∧ (∀ p, p ≠ b → upd batf b (.stat t) p = st.bat p)
    ∧ entryRuns (upd batf b (.stat t) b) = entryRuns (st.bat b) + rb
    ∧ entryBallsFaced (upd batf b (.stat t) b)
        = entryBallsFaced (st.bat b) + (if valid then 1 else 0)
    ∧ sumBat { st with bat := upd batf b (.stat t), batKeys := keys } = sumBat st + rb := by
  obtain ⟨hnd, hndw, hoff, hoffw, hsub⟩ := hWF
  have hoffb : ∀ p, p ≠ b → upd batf b (.stat t) p = st.bat p := by
    intro p hp
    by_cases hmem : b ∈ st.batKeys <;> simp [hbatf, hmem, upd, hp]
  have hatb : upd batf b (.stat t) b = .stat t := by simp [upd]
  have hsruns : entryRuns (st.bat b) = s.runs := by
    by_cases hmem : b ∈ st.batKeys
    · rw [hbatf, if_pos hmem] at hsb
      rw [hsb]
      rfl
    · rw [hbatf, if_neg hmem] at hsb
      simp only [upd, if_pos rfl] at hsb
      rw [hoff b hmem]
      cases hsb
      rfl
  have hsballs : entryBallsFaced (st.bat b) = s.balls_faced := by
    by_cases hmem : b ∈ st.batKeys
    · rw [hbatf, if_pos hmem] at hsb
      rw [hsb]
      rfl
    · rw [hbatf, if_neg hmem] at hsb
      simp only [upd, if_pos rfl] at hsb
      rw [hoff b hmem]
      cases hsb
      rfl
  refine ⟨?_, hoffb, ?_, ?_, ?_⟩
  · refine ⟨?_, hndw, ?_, hoffw, ?_⟩
    · rw [hkeys]
      by_cases hmem : b ∈ st.batKeys <;> simp [hmem, List.nodup_append, hnd]
    · intro p hp
      rw [hkeys] at hp
      have hpb : p ≠ b := by
        intro h
        subst h
        by_cases hmem : p ∈ st.batKeys <;> simp [hmem] at hp
      show upd batf b (.stat t) p = _
      rw [hoffb p hpb]
      apply hoff
      intro hpmem
      by_cases hmem : b ∈ st.batKeys <;> simp [hmem, hpmem] at hp
    · intro p hp
      rw [hkeys]
      by_cases hmem : b ∈ st.batKeys
      · simpa [hmem] using hsub p hp
      · simp only [if_neg hmem, List.mem_append, List.mem_singleton]
        exact Or.inl (hsub p hp)
  · rw [hatb, hsruns]
    exact htr
  · rw [hatb, hsballs]
    exact htb
  · show (List.map (fun p => entryRuns (upd batf b (.stat t) p)) keys).sum = sumBat st + rb
    have hg : ∀ q, q ≠ b →
        (fun p => entryRuns (upd batf b (.stat t) p)) q
          = (fun p => entryRuns (st.bat p)) q := by
      intro q hq
      exact congrArg entryRuns (hoffb q hq)
    have hgbv : (fun p => entryRuns (upd batf b (.stat t) p)) b = t.runs := by
      show entryRuns (upd batf b (.stat t) b) = t.runs
      rw [hatb]
      rfl
    by_cases hmem : b ∈ st.batKeys
    · have hsum := sum_map_update_mem (fun p => entryRuns (st.bat p))
        (fun p => entryRuns (upd batf b (.stat t) p)) b hg st.batKeys hnd hmem
      rw [hgbv, show (fun p => entryRuns (st.bat p)) b = entryRuns (st.bat b) from rfl,
        hsruns] at hsum
      rw [hkeys, if_pos hmem]
      unfold sumBat
      omega
    · have hsum := sum_map_append_new (fun p => entryRuns (st.bat p))
        (fun p => entryRuns (upd batf b (.stat t) p)) b hg st.batKeys hmem
      rw [hgbv] at hsum
      have hs0 : s.runs = 0 := by
        rw [hbatf, if_neg hmem] at hsb
        simp only [upd, if_pos rfl] at hsb
        cases hsb
        rfl
      rw [hkeys, if_neg hmem]
      unfold sumBat
      omega

/-- Success facts of the batter block (lines 33–44). -/
lemma batterUpdate_ok (st : InningsState) (d : Delivery) (b : String) (valid : Bool)
    (st' : InningsState) (hWF : WF st) (h : batterUpdate st d b valid = .ok st') :
    WF st'
    ∧ st'.bowl = st.bowl
    ∧ st'.bowlKeys = st.bowlKeys
    ∧ st'.total_balls = st.total_balls
    ∧ (∀ p, p ≠ b → st'.bat p = st.bat p)
    ∧ entryRuns (st'.bat b) = entryRuns (st.bat b) + d.runs.batter
    ∧ entryBallsFaced (st'.bat b) = entryBallsFaced (st.bat b) + (if valid then 1 else 0)
    ∧ sumBat st' = sumBat st + d.runs.batter := by
  simp only [batterUpdate] at h
  split at h
  · exact absurd h (by simp)
  · rename_i s hsb
    split at h
    · rename_i w rest hw
      split at h
      · rename_i hout
        split at h
        · exact absurd h (by simp)
        · rename_i fn hfn
          injection h with h2
          subst h2
          have shape := batterUpdate_shape st hWF b d.runs.batter valid s
            (batStatWicket (batStatUpdate s d.runs.batter valid) w fn d.bowler) _ _ rfl rfl hsb
            (by rw [batStatWicket_runs, batStatUpdate_runs])
            (by rw [batStatWicket_balls, batStatUpdate_balls])
          exact ⟨shape.1, rfl, rfl, rfl, shape.2.1, shape.2.2.1, shape.2.2.2.1, shape.2.2.2.2⟩
      · injection h with h2
        subst h2
        have shape := batterUpdate_shape st hWF b d.runs.batter valid s
          (batStatUpdate s d.runs.batter valid) _ _ rfl rfl hsb
          (batStatUpdate_runs _ _ _) (batStatUpdate_balls _ _ _)
        exact ⟨shape.1, rfl, rfl, rfl, shape.2.1, shape.2.2.1, shape.2.2.2.1, shape.2.2.2.2⟩
    · injection h with h2
      subst h2
      have shape := batterUpdate_shape st hWF b d.runs.batter valid s
        (batStatUpdate s d.runs.batter valid) _ _ rfl rfl hsb
        (batStatUpdate_runs _ _ _) (batStatUpdate_balls _ _ _)
      exact ⟨shape.1, rfl, rfl, rfl, shape.2.1, shape.2.2.1, shape.2.2.2.1, shape.2.2.2.2⟩

lemma bowlStatDelta_balls (w : BowlStat) (d : Delivery) (valid : Bool) :
    (bowlStatDelta w d valid).balls_bowled
      = w.balls_bowled + (if valid then 1 else 0) := by
  unfold bowlStatDelta
  cases d.wickets <;> (try dsimp only) <;> split_ifs <;> simp_all

lemma bowlStatDelta_wickets (w : BowlStat) (d : Delivery) (valid : Bool) :
    (bowlStatDelta w d valid).wickets
      = w.wickets + (if bowlerWicketOn d then 1 else 0) := by
  unfold bowlStatDelta
  cases hw : d.wickets <;> (try simp only [bowlerWicketOn, hw]) <;> split_ifs <;> simp_all

/-- Facts of the bowler block (lines 47–63); it never fails. -/
lemma bowlerUpdate_facts (st : InningsState) (hWF : WF st) (d : Delivery) (bw : String)
    (valid : Bool) :
    WF (bowlerUpdate st d bw valid)
    ∧ (∀ p, entryRuns ((bowlerUpdate st d bw valid).bat p) = entryRuns (st.bat p))
    ∧ (∀ p, entryBallsFaced ((bowlerUpdate st d bw valid).bat p)
        = entryBallsFaced (st.bat p))
    ∧ sumBat (bowlerUpdate st d bw valid) = sumBat st
    ∧ (∀ p, p ≠ bw → (bowlerUpdate st d bw valid).bowl p = st.bowl p)
    ∧ ((bowlerUpdate st d bw valid).bowl bw).balls_bowled
        = (st.bowl bw).balls_bowled + (if valid then 1 else 0)
    ∧ ((bowlerUpdate st d bw valid).bowl bw).wickets
        = (st.bowl bw).wickets + (if bowlerWicketOn d then 1 else 0)
    ∧ (bowlerUpdate st d bw valid).total_balls = st.total_balls := by
  obtain ⟨hnd, hndw, hoff, hoffw, hsub⟩ := hWF
  have hbatp : ∀ p, (bowlerUpdate st d bw valid).bat p
      = (if bw ∈ st.batKeys then st.bat else upd st.bat bw .init) p := fun p => rfl
  have hbatkeys : (bowlerUpdate st d bw valid).batKeys
      = (if bw ∈ st.batKeys then st.batKeys else st.batKeys ++ [bw]) := rfl
  have hbowlkeys : (bowlerUpdate st d bw valid).bowlKeys
      = (if bw ∈ st.bowlKeys then st.bowlKeys else st.bowlKeys ++ [bw]) := rfl
  have hbatruns : ∀ p, entryRuns ((bowlerUpdate st d bw valid).bat p) = entryRuns (st.bat p) := by
    intro p
    rw [hbatp]
    by_cases hbatm : bw ∈ st.batKeys
    · rw [if_pos hbatm]
    · rw [if_neg hbatm]
      by_cases hp : p = bw
      · subst hp
        rw [hoff p hbatm]
        simp [upd]
        rfl
      · simp [upd, hp]
  have hbatballs : ∀ p, entryBallsFaced ((bowlerUpdate st d bw valid).bat p)
      = entryBallsFaced (st.bat p) := by
    intro p
    rw [hbatp]
    by_cases hbatm : bw ∈ st.batKeys
    · rw [if_pos hbatm]
    · rw [if_neg hbatm]
      by_cases hp : p = bw
      · subst hp
        rw [hoff p hbatm]
        simp [upd]
        rfl
      · simp [upd, hp]
  have hbowlfbw : (if bw ∈ st.bowlKeys then st.bowl else upd st.bowl bw {}) bw
      = st.bowl bw := by
    by_cases hbm : bw ∈ st.bowlKeys
    · rw [if_pos hbm]
    · rw [if_neg hbm, hoffw bw hbm]
      simp [upd]
  have hbowlp : ∀ p, (bowlerUpdate st d bw valid).bowl p
      = upd (if bw ∈ st.bowlKeys then st.bowl else upd st.bowl bw {}) bw
          (bowlStatDelta ((if bw ∈ st.bowlKeys then st.bowl else upd st.bowl bw {}) bw)
            d valid) p := fun p => rfl
  refine ⟨?_, hbatruns, hbatballs, ?_, ?_, ?_, ?_, rfl⟩
  · refine ⟨?_, ?_, ?_, ?_, ?_⟩
    · rw [hbatkeys]
      by_cases hbatm : bw ∈ st.batKeys <;> simp [hbatm, List.nodup_append, hnd]
    · rw [hbowlkeys]
      by_cases hbm : bw ∈ st.bowlKeys <;> simp [hbm, List.nodup_append, hndw]
    · intro p hp
      rw [hbatkeys] at hp
      rw [hbatp]
      have hpbw : p ≠ bw := by
        intro hq
        subst hq
        by_cases hbatm : p ∈ st.batKeys <;> simp [hbatm] at hp
      have hpold : p ∉ st.batKeys := by
        intro hpmem
        by_cases hbatm : bw ∈ st.batKeys <;> simp [hbatm, hpmem] at hp
      by_cases hbatm : bw ∈ st.batKeys
      · rw [if_pos hbatm]
        exact hoff p hpold
      · rw [if_neg hbatm]
        rw [show upd st.bat bw BatEntry.init p = st.bat p from by simp [upd, hpbw]]
        exact hoff p hpold
    · intro p hp
      rw [hbowlkeys] at hp
      rw [hbowlp]
      have hpbw : p ≠ bw := by
        intro hq
        subst hq
        by_cases hbm : p ∈ st.bowlKeys <;> simp [hbm] at hp
      have hpold : p ∉ st.bowlKeys := by
        intro hpmem
        by_cases hbm : bw ∈ st.bowlKeys <;> simp [hbm, hpmem] at hp
      rw [show upd (if bw ∈ st.bowlKeys then st.bowl else upd st.bowl bw {}) bw
            (bowlStatDelta ((if bw ∈ st.bowlKeys then st.bowl else upd st.bowl bw {}) bw)
              d valid) p
          = (if bw ∈ st.bowlKeys then st.bowl else upd st.bowl bw {}) p from by
        simp [upd, hpbw]]
      by_cases hbm : bw ∈ st.bowlKeys
      · rw [if_pos hbm]
        exact hoffw p hpold
      · rw [if_neg hbm]
        rw [show upd st.bowl bw {} p = st.bowl p from by simp [upd, hpbw]]
        exact hoffw p hpold
    · intro p hp
      rw [hbowlkeys] at hp
      rw [hbatkeys]
      by_cases hbm : bw ∈ st.bowlKeys
      · rw [if_pos hbm] at hp
        have := hsub p hp
        by_cases hbatm : bw ∈ st.batKeys <;> simp [hbatm, this]
      · rw [if_neg hbm] at hp
        rcases List.mem_append.mp hp with hpo | hpb
        · have := hsub p hpo
          by_cases hbatm : bw ∈ st.batKeys <;> simp [hbatm, this]
        · rw [List.mem_singleton] at hpb
          subst hpb
          by_cases hbatm : p ∈ st.batKeys <;> simp [hbatm]
  · have hsb2 : sumBat (bowlerUpdate st d bw valid)
        = ((if bw ∈ st.batKeys then st.batKeys else st.batKeys ++ [bw]).map
            (fun p => entryRuns
              ((if bw ∈ st.batKeys then st.bat else upd st.bat bw .init) p))).sum := rfl
    rw [hsb2]
    unfold sumBat
    by_cases hbatm : bw ∈ st.batKeys
    · simp only [if_pos hbatm]
    · simp only [if_neg hbatm]
      have hg : ∀ q, q ≠ bw →
          (fun p => entryRuns (upd st.bat bw .init p)) q
            = (fun p => entryRuns (st.bat p)) q := by
        intro q hq
        show entryRuns (upd st.bat bw .init q) = _
        simp [upd, hq]
      have hsum := sum_map_append_new (fun p => entryRuns (st.bat p))
        (fun p => entryRuns (upd st.bat bw .init p)) bw hg st.batKeys hbatm
      have hgbw : (fun p => entryRuns (upd st.bat bw .init p)) bw = 0 := by
        show entryRuns (upd st.bat bw .init bw) = 0
        simp [upd]
        rfl
      rw [hgbw] at hsum
      omega
  · intro p hp
    rw [hbowlp]
    rw [show upd (if bw ∈ st.bowlKeys then st.bowl else upd st.bowl bw {}) bw
          (bowlStatDelta ((if bw ∈ st.bowlKeys then st.bowl else upd st.bowl bw {}) bw)
            d valid) p
        = (if bw ∈ st.bowlKeys then st.bowl else upd st.bowl bw {}) p from by
      simp [upd, hp]]
    by_cases hbm : bw ∈ st.bowlKeys
    · rw [if_pos hbm]
    · rw [if_neg hbm]
      simp [upd, hp]
  · rw [hbowlp bw]
    rw [show upd (if bw ∈ st.bowlKeys then st.bowl else upd st.bowl bw {}) bw
          (bowlStatDelta ((if bw ∈ st.bowlKeys then st.bowl else upd st.bowl bw {}) bw)
            d valid) bw
        = bowlStatDelta ((if bw ∈ st.bowlKeys then st.bowl else upd st.bowl bw {}) bw)
            d valid from by simp [upd]]
    rw [hbowlfbw, bowlStatDelta_balls]
  · rw [hbowlp bw]
    rw [show upd (if bw ∈ st.bowlKeys then st.bowl else upd st.bowl bw {}) bw
          (bowlStatDelta ((if bw ∈ st.bowlKeys then st.bowl else upd st.bowl bw {}) bw)
            d valid) bw
        = bowlStatDelta ((if bw ∈ st.bowlKeys then st.bowl else upd st.bowl bw {}) bw)
            d valid from by simp [upd]]
    rw [hbowlfbw, bowlStatDelta_wickets]

/-- Success facts of the batter phase. -/
lemma batterPhase_ok (st : InningsState) (d : Delivery) (valid : Bool)
    (st' : InningsState) (hWF : WF st) (h : batterPhase st d valid = .ok st') :
    WF st'
    ∧ (∀ p, entryBallsFaced (st'.bat p) = entryBallsFaced (st.bat p)
        + (if batsBy p d && valid then 1 else 0))
    ∧ st'.bowl = st.bowl
    ∧ sumBat st' = sumBat st + (if truthyStr d.batter then d.runs.batter else 0) := by
  unfold batterPhase at h
  cases hb : d.batter with
  | none =>
    rw [hb] at h
    dsimp only at h
    injection h with h2
    subst h2
    refine ⟨hWF, ?_, rfl, ?_⟩ <;> simp [batsBy, truthyStr, hb]
  | some b =>
    rw [hb] at h
    dsimp only at h
    by_cases htb : truthyStr (some b) = true
    · rw [if_pos htb] at h
      obtain ⟨hg1, hg2, hg3, hg4, hg5, hg6, hg7, hg8⟩ :=
        batterUpdate_ok st d b valid st' hWF h
      refine ⟨hg1, ?_, hg2, ?_⟩
      · intro p
        by_cases hp : p = b
        · subst hp
          rw [hg7]
          simp [batsBy, hb, htb]
        · rw [hg5 p hp]
          have hpq : (some b == some p) = false :=
            beq_eq_false_iff_ne.mpr fun hc => hp (Option.some_inj.mp hc).symm
          simp [batsBy, hb, hpq]
      · rw [hg8]
        simp [htb]
    · rw [if_neg htb] at h
      injection h with h2
      subst h2
      rw [Bool.not_eq_true] at htb
      refine ⟨hWF, ?_, rfl, ?_⟩ <;> simp [batsBy, hb, htb]

/-- Facts of the bowler phase (it never fails). -/
lemma bowlerPhase_facts (st : InningsState) (d : Delivery) (valid : Bool) (hWF : WF st) :
    WF (bowlerPhase st d valid)
    ∧ (∀ p, entryBallsFaced ((bowlerPhase st d valid).bat p) = entryBallsFaced (st.bat p))
    ∧ sumBat (bowlerPhase st d valid) = sumBat st
    ∧ (∀ p, ((bowlerPhase st d valid).bowl p).balls_bowled
        = (st.bowl p).balls_bowled + (if bowlsBy p d && valid then 1 else 0))
    ∧ (∀ p, ((bowlerPhase st d valid).bowl p).wickets
        = (st.bowl p).wickets + (if bowlsBy p d && bowlerWicketOn d then 1 else 0)) := by
  unfold bowlerPhase
  cases hbw : d.bowler with
  | none =>
    refine ⟨hWF, fun p => rfl, rfl, ?_, ?_⟩ <;> simp [bowlsBy, hbw]
  | some bw =>
    dsimp only
    by_cases htw : truthyStr (some bw) = true
    · rw [if_pos htw]
      obtain ⟨hf1, hf2, hf3, hf4, hf5, hf6, hf7, hf8⟩ :=
        bowlerUpdate_facts st hWF d bw valid
      refine ⟨hf1, hf3, hf4, ?_, ?_⟩
      · intro p
        by_cases hp : p = bw
        · subst hp
          rw [hf6]
          simp [bowlsBy, hbw, htw]
        · rw [hf5 p hp]
          have hpq : (some bw == some p) = false :=
            beq_eq_false_iff_ne.mpr fun hc => hp (Option.some_inj.mp hc).symm
          simp [bowlsBy, hbw, hpq]
      · intro p
        by_cases hp : p = bw
        · subst hp
          rw [hf7]
          simp [bowlsBy, hbw, htw]
        · rw [hf5 p hp]
          have hpq : (some bw == some p) = false :=
            beq_eq_false_iff_ne.mpr fun hc => hp (Option.some_inj.mp hc).symm
          simp [bowlsBy, hbw, hpq]
    · rw [if_neg htw]
      rw [Bool.not_eq_true] at htw
      refine ⟨hWF, fun p => rfl, rfl, ?_, ?_⟩ <;> simp [bowlsBy, hbw, htw]

/-- How one iteration of the delivery loop changes each counter, on success. -/
lemma stepDelivery_ok (st : InningsState) (d : Delivery) (st' : InningsState)
    (hWF : WF st) (h : stepDelivery st d = .ok st') :
    WF st'
    ∧ (∀ p, entryBallsFaced (st'.bat p) = entryBallsFaced (st.bat p)
        + (if batsBy p d && is_valid_ball d then 1 else 0))
    ∧ (∀ p, (st'.bowl p).balls_bowled = (st.bowl p).balls_bowled
        + (if bowlsBy p d && is_valid_ball d then 1 else 0))
    ∧ (∀ p, (st'.bowl p).wickets = (st.bowl p).wickets
        + (if bowlsBy p d && bowlerWicketOn d then 1 else 0))
    ∧ sumBat st' = sumBat st + (if truthyStr d.batter then d.runs.batter else 0) := by
  simp only [stepDelivery] at h
  cases hbp : batterPhase
      { st with total_balls := if is_valid_ball d then st.total_balls + 1
                               else st.total_balls }
      d (is_valid_ball d) with
  | error e =>
    rw [hbp] at h
    exact absurd h (by simp)
  | ok st2 =>
    rw [hbp] at h
    injection h with h2
    subst h2
    have hWF1 : WF { st with total_balls := if is_valid_ball d then st.total_balls + 1
                                            else st.total_balls } := hWF
    obtain ⟨hb1, hb2, hb3, hb4⟩ := batterPhase_ok _ d (is_valid_ball d) st2 hWF1 hbp
    obtain ⟨hw1, hw2, hw3, hw4, hw5⟩ := bowlerPhase_facts st2 d (is_valid_ball d) hb1
    dsimp only at hb2 hb3 hb4
    have hsum1 : sumBat { st with total_balls := if is_valid_ball d then st.total_balls + 1
                                                 else st.total_balls } = sumBat st := rfl
    refine ⟨hw1, ?_, ?_, ?_, ?_⟩
    · intro p
      rw [hw2 p, hb2 p]
    · intro p
      rw [hw4 p, show st2.bowl = st.bowl from hb3]
    · intro p
      rw [hw5 p, show st2.bowl = st.bowl from hb3]
    · rw [hw3, hb4, hsum1]

/-- The loop facts accumulated over a list of deliveries. -/
lemma runDeliveries_facts : ∀ (ds : List Delivery) (st st' : InningsState), WF st →
    runDeliveries st ds = .ok st' →
    WF st'
    ∧ (∀ p, entryBallsFaced (st'.bat p) = entryBallsFaced (st.bat p)
        + ds.countP (fun e => batsBy p e && is_valid_ball e))
    ∧ (∀ p, (st'.bowl p).balls_bowled = (st.bowl p).balls_bowled
        + ds.countP (fun e => bowlsBy p e && is_valid_ball e))
    ∧ (∀ p, (st'.bowl p).wickets = (st.bowl p).wickets
        + ds.countP (fun e => bowlsBy p e && bowlerWicketOn e))
    ∧ sumBat st' = sumBat st
        + (ds.map (fun e => if truthyStr e.batter then e.runs.batter else 0)).sum := by
  intro ds
  induction ds with
  | nil =>
    intro st st' hWF h
    injection h with h2
    subst h2
    simp [hWF]
  | cons d t ih =>
    intro st st' hWF h
    rw [show runDeliveries st (d :: t)
        = (match stepDelivery st d with
           | .error e => .error e
           | .ok stm => runDeliveries stm t) from rfl] at h
    cases hsd : stepDelivery st d with
    | error e =>
      rw [hsd] at h
      exact absurd h (by simp)
    | ok stm =>
      rw [hsd] at h
      obtain ⟨hs1, hs2, hs3, hs4, hs5⟩ := stepDelivery_ok st d stm hWF hsd
      obtain ⟨ht1, ht2, ht3, ht4, ht5⟩ := ih stm st' hs1 h
      refine ⟨ht1, ?_, ?_, ?_, ?_⟩
      · intro p
        rw [ht2 p, hs2 p, List.countP_cons]
        omega
      · intro p
        rw [ht3 p, hs3 p, List.countP_cons]
        omega
      · intro p
        rw [ht4 p, hs4 p, List.countP_cons]
        omega
      · rw [ht5, hs5, List.map_cons, List.sum_cons]
        omega

lemma WF_init : WF initState := by
  refine ⟨List.nodup_nil, List.nodup_nil, fun p _ => rfl, fun p _ => rfl, fun p hp => ?_⟩
  cases hp

lemma sum_batter_extras (ds : List Delivery)
    (hruns : ∀ d ∈ ds, d.runs.total = d.runs.batter + d.runs.extras) :
    (ds.map (fun d => d.runs.batter)).sum + (ds.map (fun d => d.runs.extras)).sum
      = (ds.map (fun d => d.runs.total)).sum := by
  induction ds with
  | nil => rfl
  | cons d t ih =>
    have hd := hruns d (List.mem_cons_self d t)
    have ht := ih (fun e he => hruns e (List.mem_cons_of_mem _ he))
    simp only [List.map_cons, List.sum_cons]
    omega

/-! ## Claim theorems for the per-innings accumulator -/

/-- **C5.** A delivery is a valid ball exactly when its extras mapping
contains neither a `wides` nor a `noballs` key (a key present with value 0,
i.e. `some 0`, still makes it invalid), and a player's `balls_faced`
(resp. `balls_bowled`) counts exactly the deliveries they batted (resp.
bowled) that are valid balls. -/
theorem valid_ball_classification (ds : List Delivery) (st : InningsState)
    (h : analyzeDeliveries ds = .ok st) (p : String) (d : Delivery) :
    (is_valid_ball d = true ↔ d.extras.wides = none ∧ d.extras.noballs = none)
    ∧ entryBallsFaced (st.bat p) = ds.countP (fun e => batsBy p e && is_valid_ball e)
    ∧ (st.bowl p).balls_bowled = ds.countP (fun e => bowlsBy p e && is_valid_ball e) := by
  obtain ⟨_, h2, h3, _, _⟩ := runDeliveries_facts ds initState st WF_init h
  refine ⟨?_, ?_, ?_⟩
  · unfold is_valid_ball
    cases d.extras.wides <;> cases d.extras.noballs <;> simp
  · simpa [initState, entryBallsFaced] using h2 p
  · simpa [initState] using h3 p

/-- **C6.** A bowler's wicket counter counts exactly the deliveries they
bowled whose (first) wicket event has a bowler-credited kind; the credited
kinds are caught, bowled, lbw, stumped and hit wicket, and run-outs and
retirements are not credited. -/
theorem bowler_wicket_credit (ds : List Delivery) (st : InningsState)
    (h : analyzeDeliveries ds = .ok st) (p : String) :
    (st.bowl p).wickets = ds.countP (fun e => bowlsBy p e && bowlerWicketOn e)
    ∧ is_bowler_wicket (some "caught") = true
    ∧ is_bowler_wicket (some "bowled") = true
    ∧ is_bowler_wicket (some "lbw") = true
    ∧ is_bowler_wicket (some "stumped") = true
    ∧ is_bowler_wicket (some "hit wicket") = true
    ∧ is_bowler_wicket (some "run out") = false
    ∧ is_bowler_wicket (some "retired hurt") = false
    ∧ is_bowler_wicket (some "retired out") = false := by
  obtain ⟨_, _, _, h4, _⟩ := runDeliveries_facts ds initState st WF_init h
  exact ⟨by simpa [initState] using h4 p, by decide, by decide, by decide, by decide,
    by decide, by decide, by decide, by decide⟩

/-- **C4.** For any innings the accumulator processes to completion,
provided each delivery names a batter and its runs decompose as
`total = batter + extras` (the repository's data model), the batting runs
summed over all players plus the extras summed over all balls equal the
total runs summed over all balls. -/
theorem innings_run_conservation (ds : List Delivery) (st : InningsState)
    (h : analyzeDeliveries ds = .ok st)
    (hbat : ∀ d ∈ ds, truthyStr d.batter = true)
    (hruns : ∀ d ∈ ds, d.runs.total = d.runs.batter + d.runs.extras) :
    ((allPlayers st).map (fun p => entryRuns (st.bat p))).sum
      + (ds.map (fun d => d.runs.extras)).sum
      = (ds.map (fun d => d.runs.total)).sum := by
  obtain ⟨hWF, _, _, _, h5⟩ := runDeliveries_facts ds initState st WF_init h
  have hall : ((allPlayers st).map (fun p => entryRuns (st.bat p))).sum = sumBat st := by
    unfold allPlayers sumBat
    obtain ⟨_, _, _, _, hsub⟩ := hWF
    have hfilter : st.bowlKeys.filter (fun p => !st.batKeys.contains p) = [] := by
      rw [List.filter_eq_nil_iff]
      intro a ha
      simpa using hsub a ha
    rw [hfilter, List.append_nil]
  have hmap : (ds.map (fun e => if truthyStr e.batter then e.runs.batter else 0)).sum
      = (ds.map (fun d => d.runs.batter)).sum := by
    congr 1
    apply List.map_congr_left
    intro e he
    rw [hbat e he]
    simp
  have hinit : sumBat initState = 0 := rfl
  have hsplit := sum_batter_extras ds hruns
  rw [hall, h5, hinit, hmap]
  omega

/-- The bowler phase never changes a batting entry that is already in the
batting dict (its `setdefault` is a no-op on present keys). -/
lemma bowlerPhase_bat_mem (st : InningsState) (d : Delivery) (valid : Bool) (p : String)
    (hp : p ∈ st.batKeys) :
    (bowlerPhase st d valid).bat p = st.bat p := by
  unfold bowlerPhase
  cases d.bowler with
  | none => rfl
  | some bwv =>
    dsimp only
    split_ifs with htw
    · unfold bowlerUpdate
      dsimp only
      by_cases hm : bwv ∈ st.batKeys
      · rw [if_pos hm]
      · rw [if_neg hm]
        have hpv : p ≠ bwv := fun hc => hm (hc ▸ hp)
        simp [upd, hpv]
    · rfl

/-- **C7 (amended).** For a delivery whose (first) wicket dismisses the
batter: when the `fielders` key is absent, the recorded dismissal kind is the
wicket's kind and the "out by" credit falls back to the bowler; when a first
fielder is listed, the credit is that fielder's name if it is a truthy
(present, non-empty) string and the bowler otherwise; but when the
`fielders` key is present with an *empty* list, the innings analysis fails
(`IndexError`) instead of falling back. -/
theorem out_by_fallback (d : Delivery) (b : String) (w : Wicket) (rest : List Wicket)
    (hb : d.batter = some b) (hbne : b ≠ "") (hw : d.wickets = w :: rest)
    (hout : w.player_out = some b) :
    (analyzeDeliveries [d]).map
        (fun st => (entryDismissal (st.bat b), entryOutBy (st.bat b)))
      = match w.fielders with
        | none => .ok (w.kind, d.bowler)
        | some [] => .error ()
        | some (f :: _) =>
            .ok (w.kind, if truthyStr f.name = true then f.name else d.bowler) := by
  have hbe : b.isEmpty = false := by
    cases hbe : b.isEmpty
    · rfl
    · exact absurd ((String.isEmpty_iff b).mp hbe) hbne
  have htb : truthyStr (some b) = true := by
    simp [truthyStr, hbe]
  obtain ⟨bt, bwl, rn, ex, wv⟩ := d
  dsimp only at hb hw ⊢
  subst hb
  subst hw
  cases hf : w.fielders with
  | none =>
    simp only [analyzeDeliveries, runDeliveries, stepDelivery, batterPhase, htb, if_true,
      batterUpdate, initState, fielderName, hf, hout, List.not_mem_nil, if_false, ite_false,
      if_neg, upd, if_pos rfl]
    simp only [Except.map]
    rw [bowlerPhase_bat_mem _ _ _ b (by simp)]
    simp [upd, entryDismissal, entryOutBy, batStatWicket, pyOr, truthyStr]
  | some fs =>
    cases fs with
    | nil =>
      simp only [analyzeDeliveries, runDeliveries, stepDelivery, batterPhase, htb, if_true,
        batterUpdate, initState, fielderName, hf, hout, List.not_mem_nil, if_false, ite_false,
        if_neg, upd, if_pos rfl]
      rfl
    | cons f ftl =>
      simp only [analyzeDeliveries, runDeliveries, stepDelivery, batterPhase, htb, if_true,
        batterUpdate, initState, fielderName, hf, hout, List.not_mem_nil, if_false, ite_false,
        if_neg, upd, if_pos rfl]
      simp only [Except.map]
      rw [bowlerPhase_bat_mem _ _ _ b (by simp)]
      simp [upd, entryDismissal, entryOutBy, batStatWicket, pyOr]

/-- **C7 (counterexample).** On a delivery whose wicket event carries a
*present but empty* fielders list, the innings analysis raises
(`IndexError` on `[{}][0]`-style access) — it does not record a bowler
fallback as the claim states. -/
theorem out_by_empty_fielders_error : analyzeDeliveries [dBadFielders] = .error () := rfl

/-- One loop iteration depends on a delivery's wicket list only through its
first element. -/
lemma stepDelivery_wickets_head (st : InningsState) (d : Delivery) (w : Wicket)
    (rest : List Wicket) :
    stepDelivery st { d with wickets := w :: rest }
      = stepDelivery st { d with wickets := [w] } := rfl

/-- **C10.** Only the first wicket event of a delivery has any effect: an
innings in which some delivery carries the wicket events `w :: rest`
produces exactly the same analysis result as the same innings with that
delivery carrying `[w]` alone — every subsequent wicket event is ignored in
every player's statistics. -/
theorem first_wicket_event_only (pre post : List Delivery) (d : Delivery) (w : Wicket)
    (rest : List Wicket) :
    analyzeDeliveries (pre ++ { d with wickets := w :: rest } :: post)
      = analyzeDeliveries (pre ++ { d with wickets := [w] } :: post) := by
  unfold analyzeDeliveries
  suffices hgen : ∀ st, runDeliveries st (pre ++ { d with wickets := w :: rest } :: post)
      = runDeliveries st (pre ++ { d with wickets := [w] } :: post) from hgen _
  intro st
  induction pre generalizing st with
  | nil =>
    simp only [List.nil_append]
    rw [show runDeliveries st ({ d with wickets := w :: rest } :: post)
        = (match stepDelivery st { d with wickets := w :: rest } with
           | .error e => .error e
           | .ok st2 => runDeliveries st2 post) from rfl,
      show runDeliveries st ({ d with wickets := [w] } :: post)
        = (match stepDelivery st { d with wickets := [w] } with
           | .error e => .error e
           | .ok st2 => runDeliveries st2 post) from rfl,
      stepDelivery_wickets_head]
  | cons q qre ih =>
    simp only [List.cons_append]
    rw [show runDeliveries st (q :: (qre ++ { d with wickets := w :: rest } :: post))
        = (match stepDelivery st q with
           | .error e => .error e
           | .ok st2 => runDeliveries st2 (qre ++ { d with wickets := w :: rest } :: post))
        from rfl,
      show runDeliveries st (q :: (qre ++ { d with wickets := [w] } :: post))
        = (match stepDelivery st q with
           | .error e => .error e
           | .ok st2 => runDeliveries st2 (qre ++ { d with wickets := [w] } :: post))
        from rfl]
    cases stepDelivery st q with
    | error e => rfl
    | ok st2 => exact ih st2

/-- **C1.** Evaluating the batch pipeline at the failing input: a file whose
JSON parses to the empty object `{}` reaches
`info.get('teams', [''])[1]`, whose default list has no index 1, so an
`IndexError` escapes `extract_data_from_match_file` (it is raised outside
the `try` block) and aborts the whole batch loop; by contrast an unreadable
file is caught, contributes no rows, and processing continues. -/
theorem missing_teams_escapes_batch :
    extract_data_from_match_file "empty.json" (.parsed emptyMatchFile) = .error ()
    ∧ process_all_files [("a.json", .unreadable), ("empty.json", .parsed emptyMatchFile)]
        = .error ()
    ∧ extract_data_from_match_file "a.json" .unreadable = .ok none :=
  ⟨rfl, rfl, rfl⟩

/-- **C8 (counterexample).** On a one-delivery bowler group consisting of a
wide (no runs off the bat, one run conceded), the source's rolling economy
(which rolls the `bat_runs` column) differs from the economy computed over
the runs the bowler conceded: the claim's reading is false on the code. -/
theorem bowl_economy_ne_over_conceded :
    bowl_economy [rowWide] ≠ bowl_economy_over_conceded [rowWide] := by
  have h0 : bowl_economy [rowWide] = [(0 : ℚ)] := by
    simp [bowl_economy, bowl_rolling_runs_conceded, bowl_rolling_balls, rollingSum,
      cumcount1, rowWide, window, List.range_succ, List.range_zero]
  have h1 : bowl_economy_over_conceded [rowWide] = [(6 : ℚ)] := by
    simp [bowl_economy_over_conceded, concededRuns, rowWide, window, List.range_succ,
      List.range_zero]
  rw [h0, h1]
  intro hc
  rw [List.cons.injEq] at hc
  norm_num at hc

/-- **C8 (amended).** The rolling economy has the windowed-numerator /
cumulative-denominator shape, but its numerator is the sum of the `bat_runs`
column (runs off the bat) over the bowler's last at most 12 deliveries — not
the runs conceded (wide/no-ball penalty runs are excluded) — divided by the
cumulative count of the bowler's deliveries so far, times 6. -/
theorem bowl_economy_windowed (g : List FRow) (i : ℕ) (h : i < g.length) :
    (bowl_economy g).getD i 0
        = ((∑ j ∈ Finset.Ico (i + 1 - min (i + 1) window) (i + 1),
              (g.map (·.bat_runs)).getD j 0 : ℕ) : ℚ) / ((i + 1 : ℕ) : ℚ) * 6
  ∧ (i + 1 - min (i + 1) window) + min (i + 1) window = i + 1 := by
  have hlen : (g.map (·.bat_runs)).length = g.length := List.length_map _ _
  have h1 : (bowl_rolling_runs_conceded g).getD i 0
      = ∑ j ∈ Finset.Ico (i + 1 - min (i + 1) window) (i + 1), (g.map (·.bat_runs)).getD j 0 := by
    rw [bowl_rolling_runs_conceded, rollingSum, getD_range_map _ _ _ _ (by omega),
      slice_sum_eq_sum_Ico _ _ _ (by omega)]
    congr 2
    omega
  have h3 : (bowl_rolling_balls g).getD i 0 = i + 1 := by
    rw [bowl_rolling_balls, cumcount1, getD_range_map _ _ _ _ (by omega)]
  refine ⟨?_, by omega⟩
  rw [bowl_economy, getD_range_map _ _ _ _ h, h1, h3]

/-! ## Witnesses: the claim theorems applied at concrete inputs -/

/-- Witness for C3 on a two-ball history: windowed runs 5, cumulative balls
2, strike rate 250. -/
theorem bat_rolling_features_witness :
    (bat_rolling_runs [rowA, rowB]).getD 1 0 = 5
    ∧ (bat_rolling_balls [rowA, rowB]).getD 1 0 = 2
    ∧ (bat_strike_rate [rowA, rowB]).getD 1 0 = 250 := by
  obtain ⟨h1, h2, h3, h4⟩ := bat_rolling_features [rowA, rowB] 1 (by decide)
  have hs : (∑ j ∈ Finset.Ico (1 + 1 - min (1 + 1) window) (1 + 1),
      (([rowA, rowB] : List FRow).map (·.bat_runs)).getD j 0) = 5 := by decide
  refine ⟨?_, h3, ?_⟩
  · rw [h1, hs]
  · rw [h4, hs]
    norm_num

/-- Witness for C4 on the three-ball scenario innings: 5 batting runs, no
extras, 5 total runs. -/
theorem innings_run_conservation_witness :
    (∀ d ∈ dsW, truthyStr d.batter = true)
    ∧ (∀ d ∈ dsW, d.runs.total = d.runs.batter + d.runs.extras)
    ∧ analyzeDeliveries dsW = .ok (okState dsW)
    ∧ ((allPlayers (okState dsW)).map (fun p => entryRuns ((okState dsW).bat p))).sum
        + (dsW.map (fun d => d.runs.extras)).sum
        = (dsW.map (fun d => d.runs.total)).sum :=
  ⟨by decide, by decide, rfl,
   innings_run_conservation dsW (okState dsW) rfl (by decide) (by decide)⟩

/-- Witness for C5 on the scenario innings: batter A faces 3 valid balls,
bowler X bowls 3. -/
theorem valid_ball_classification_witness :
    analyzeDeliveries dsW = .ok (okState dsW)
    ∧ entryBallsFaced ((okState dsW).bat "A") = 3
    ∧ ((okState dsW).bowl "X").balls_bowled = 3 := by
  have hA := valid_ball_classification dsW (okState dsW) rfl "A" dA1
  have hX := valid_ball_classification dsW (okState dsW) rfl "X" dA1
  refine ⟨rfl, ?_, ?_⟩
  · rw [hA.2.1]
    decide
  · rw [hX.2.2]
    decide

/-- Witness for C6 on the scenario innings: X is credited with the single
bowled dismissal. -/
theorem bowler_wicket_credit_witness :
    analyzeDeliveries dsW = .ok (okState dsW)
    ∧ ((okState dsW).bowl "X").wickets = 1 := by
  have h := bowler_wicket_credit dsW (okState dsW) rfl "X"
  refine ⟨rfl, ?_⟩
  rw [h.1]
  decide

/-- Witness for C7 (amended) at the scenario's final ball: no fielders key,
so the credit falls back to the bowler X. -/
theorem out_by_fallback_witness :
    (analyzeDeliveries [dA3]).map
        (fun st => (entryDismissal (st.bat "A"), entryOutBy (st.bat "A")))
      = .ok (some "bowled", some "X") := by
  have h := out_by_fallback dA3 "A"
    { kind := some "bowled", player_out := some "A", fielders := none } [] rfl
    (by decide) rfl rfl
  simpa using h

/-- Witness for C8 (amended) on the one-wide group: economy 0 (no runs off
the bat). -/
theorem bowl_economy_windowed_witness :
    (bowl_economy [rowWide]).getD 0 0 = 0 := by
  obtain ⟨h1, _⟩ := bowl_economy_windowed [rowWide] 0 (by decide)
  have hs : (∑ j ∈ Finset.Ico (0 + 1 - min (0 + 1) window) (0 + 1),
      (([rowWide] : List FRow).map (·.bat_runs)).getD j 0) = 0 := by decide
  rw [h1, hs]
  norm_num

/-- Witness for C9 on a two-ball group: one output row carrying the second
ball's runs (3) and wicket indicator (1). -/
theorem targets_next_ball_witness :
    (targetRows [rowA, rowB]).length = 1
    ∧ (targetRows [rowA, rowB]).get? 0 = some (rowA, 3, 1) := by
  obtain ⟨h1, h2⟩ := targets_next_ball [rowA, rowB] 0 (by decide)
  exact ⟨h1, h2⟩

end Cricket
